import Mathlib

/-!
Verification development for the single-component PDF viewer/editor
(`src/app.component.ts`). The component is shallowly embedded: its signal
state becomes the record `AppState`, JS `Map`s become insertion-ordered
association lists, the external pdf.js document becomes `PdfDoc` (page
sizes at scale 1 plus extracted text items), and the asynchronous handler
chains (`onFileSelected` → `loadPdf` → `renderPage`, `downloadPdf`)
become sequential state-transformer functions. Calls into the two
external libraries and `alert` notices are recorded in an event trace.
Coordinates and the zoom factor are rationals (`0.25 = 1/4`,
`0.9 = 9/10`, `1.25 = 5/4`).
-/

/-- One entry of pdf.js `textContent.items` (interface `TextItem` in the
source): text, direction, size and the 2D affine transform (a 6-element
array; entries 4 and 5 are the translation). -/
structure TextItem where
  str : String
  dir : String
  width : ℚ
  height : ℚ
  transform : List ℚ
  fontName : String
  deriving DecidableEq, Repr

/-- One page of the parsed document: its size at scale 1 (so
`getViewport \x7bscale: 1\x7d` has this height, and pdf-lib's
`page.getSize()` returns the same height) together with the positioned
text items that `getTextContent` extracts for it. -/
structure PdfPage where
  width : ℚ
  height : ℚ
  items : List TextItem
  deriving DecidableEq, Repr

/-- The parsed document handle (`pdfDocProxy` / the pdf-lib document):
`numPages` is `pages.length`; `getPage n` (1-based) is `pages.get? (n-1)`. -/
structure PdfDoc where
  pages : List PdfPage
  deriving DecidableEq, Repr

/-- Raw file bytes (`ArrayBuffer`). Only identity matters to the claims. -/
abbrev ByteBuf := List Nat

/-- A JS `Map` value, as an insertion-ordered association list with unique
keys: `get` is the first (only) match, `set` replaces in place or appends. -/
def alistLookup {α : Type} (m : List (Nat × α)) (k : Nat) : Option α :=
  match m with
  | [] => none
  | (k', v) :: rest => if k' = k then some v else alistLookup rest k

/-- JS `Map.set`: replace the value at an existing key keeping its
position, else append the new entry at the end. -/
def alistSet {α : Type} (m : List (Nat × α)) (k : Nat) (v : α) : List (Nat × α) :=
  match m with
  | [] => [(k, v)]
  | (k', v') :: rest => if k' = k then (k, v) :: rest else (k', v') :: alistSet rest k v

/-- The `editedTexts` overlay value: page number → (fragment index →
replacement text). -/
abbrev Overlay := List (Nat × List (Nat × String))

/-- The component's signal state (`AppComponent` fields). -/
structure AppState where
  isLoading : Bool
  pdfFileBuffer : Option ByteBuf
  pdfDocProxy : Option PdfDoc
  currentPage : Nat
  totalPages : Nat
  zoom : ℚ
  canvasWidth : ℚ
  canvasHeight : ℚ
  textItems : List TextItem
  editedTexts : Overlay
  deriving DecidableEq, Repr

/-- The state at component construction: `isLoading = false`, no buffer,
no document, `currentPage = 1`, `totalPages = 0`, `zoom = 1.25`. -/
def initialState : AppState :=
  { isLoading := false
    pdfFileBuffer := none
    pdfDocProxy := none
    currentPage := 1
    totalPages := 0
    zoom := 5/4
    canvasWidth := 0
    canvasHeight := 0
    textItems := []
    editedTexts := [] }

/-- Observable events of a handler chain: user-facing `alert` notices and
calls into the two external libraries (pdf.js the rasterizer, pdf-lib the
mutation library). -/
inductive Ev where
  | alert (msg : String)
  | rasterizer
  | mutation
  deriving DecidableEq, Repr

/-- `renderPage(pageNum)`. Guards: no document, page out of `[1, totalPages]`,
or the canvas `ViewChild` not yet present (`canvasReady = false`) → early
return, state untouched (in particular `isLoading` is NOT cleared there).
Otherwise: `isLoading := true`, `currentPage := pageNum`, then the
`try/catch/finally`: on success (`renderOk = true` and the page exists)
the canvas is sized to `page dimensions × zoom` and `textItems` is
replaced wholesale; on failure an alert is raised; `finally` clears
`isLoading` in both cases. -/
def renderPage (canvasReady renderOk : Bool) (st : AppState) (pageNum : Nat) :
    AppState × List Ev :=
  match st.pdfDocProxy with
  | none => (st, [])
  | some doc =>
    if pageNum < 1 ∨ st.totalPages < pageNum then (st, [])
    else if canvasReady = false then (st, [])
    else
      let st1 := { st with isLoading := true, currentPage := pageNum }
      match renderOk, doc.pages.get? (pageNum - 1) with
      | true, some page =>
          ({ st1 with
              canvasWidth := page.width * st.zoom
              canvasHeight := page.height * st.zoom
              textItems := page.items
              isLoading := false }, [Ev.rasterizer])
      | _, _ =>
          ({ st1 with isLoading := false },
            [Ev.rasterizer, Ev.alert "An error occurred while rendering the page."])

/-- `loadPdf(fileBuffer)` on the parse-success path (`pdfjsLib.getDocument`
succeeded and produced `doc`; the failure path is handled by the caller's
`catch`): store the handle, reset `totalPages`, `currentPage := 1`, clear
the overlay, then `renderPage(1)`. -/
def loadPdf (canvasReady renderOk : Bool) (st : AppState) (doc : PdfDoc) :
    AppState × List Ev :=
  let st1 := { st with
      pdfDocProxy := some doc
      totalPages := doc.pages.length
      currentPage := 1
      editedTexts := [] }
  let res := renderPage canvasReady renderOk st1 1
  (res.1, Ev.rasterizer :: res.2)

/-- `onFileSelected`, modelled on a selected file of MIME type `fileType`
with bytes `buf`. `libsOk` is whether the CDN script load succeeds;
`parsed` is the result of `pdfjsLib.getDocument` (`none` = parse failure,
caught in the deferred callback). A non-PDF MIME type is rejected by
`alert` before `isLoading` is touched and before any library call. -/
def onFileSelected (canvasReady renderOk libsOk : Bool) (st : AppState)
    (fileType : String) (buf : ByteBuf) (parsed : Option PdfDoc) :
    AppState × List Ev :=
  if fileType ≠ "application/pdf" then (st, [Ev.alert "Please select a PDF file."])
  else
    let st1 := { st with isLoading := true }
    if libsOk = false then
      ({ st1 with isLoading := false },
        [Ev.alert "Failed to load required PDF libraries. Please check your internet connection and try again."])
    else
      let st2 := { st1 with pdfFileBuffer := some buf }
      match parsed with
      | none =>
          ({ st2 with pdfFileBuffer := none, isLoading := false },
            [Ev.rasterizer, Ev.alert "Failed to load PDF file."])
      | some doc => loadPdf canvasReady renderOk st2 doc

/-- `updateText(itemIndex, event)` at the level of the resulting overlay
value: fetch the current page's sub-map (or an empty one), set the entry,
write the sub-map back. (Reference-level mutation behaviour is modelled
separately by `updateTextStore`.) -/
def updateText (st : AppState) (itemIndex : Nat) (newText : String) : AppState :=
  let pageEdits := (alistLookup st.editedTexts st.currentPage).getD []
  { st with
      editedTexts :=
        alistSet st.editedTexts st.currentPage (alistSet pageEdits itemIndex newText) }

/-- `getEditedText(itemIndex)`: the overlay value for
(current page, index) if present, else `textItems[itemIndex].str`.
The fallback is partial in JS: when `itemIndex` is out of bounds,
`textItems()[itemIndex]` is `undefined` and reading `.str` throws a
`TypeError`; the model renders that crash as `none`. -/
def getEditedText (st : AppState) (itemIndex : Nat) : Option String :=
  match alistLookup st.editedTexts st.currentPage with
  | some pageEdits =>
      match alistLookup pageEdits itemIndex with
      | some s => some s
      | none => (st.textItems.get? itemIndex).map TextItem.str
  | none => (st.textItems.get? itemIndex).map TextItem.str

/-- `zoomIn` step on the zoom factor: `min (z + 0.25) 3`. -/
def zoomIn (z : ℚ) : ℚ := min (z + 1/4) 3

/-- `zoomOut` step on the zoom factor: `max (z - 0.25) 0.5`. -/
def zoomOut (z : ℚ) : ℚ := max (z - 1/4) (1/2)

/-- One zoom step: `true` is a `zoomIn` click, `false` a `zoomOut` click. -/
def zoomStep (z : ℚ) (dir : Bool) : ℚ := if dir then zoomIn z else zoomOut z

/-- The zoom factor after a finite sequence of zoom clicks starting from
the initial factor `1.25`. -/
def zoomAfter (steps : List Bool) : ℚ := steps.foldl zoomStep (5/4)

/-- A drawing primitive issued to the mutation library on output page
`pageIndex` (0-based), in its bottom-left-origin coordinates:
`drawRectangle` (the white cover over the original bounding box) or
`drawText` (the replacement string in the embedded Helvetica). -/
inductive DrawOp where
  | rect (pageIndex : Nat) (x y width height : ℚ)
  | text (pageIndex : Nat) (s : String) (x y size : ℚ)
  deriving DecidableEq, Repr

/-- The inner export loop body for one edit `(itemIndex, newText)`:
skip (`continue`) when `itemIndex` is out of range of the freshly
re-extracted `items`; otherwise emit the cover rectangle and the
replacement text at `x = transform[4]`,
`y = viewport(scale 1).height - transform[5]`, with font size
`height * 0.9`. A transform entry past the array's end reads as the JS
`undefined`-free default `0` (pdf.js transforms always have 6 entries). -/
def editOps (pageIndex : Nat) (viewportHeight : ℚ) (items : List TextItem)
    (itemIndex : Nat) (newText : String) : List DrawOp :=
  match items.get? itemIndex with
  | none => []
  | some item =>
      let x := item.transform.getD 4 0
      let y := viewportHeight - item.transform.getD 5 0
      [DrawOp.rect pageIndex x y item.width item.height,
       DrawOp.text pageIndex newText x y (item.height * (9/10))]

/-- The outer export loop body for one overlay entry `(pageNum, edits)`:
skip (`continue`) when `pageIndex = pageNum - 1` is out of range of the
output document's page list; otherwise fetch the rasterizer page
`pdfDocProxy().getPage(pageNum)` and its scale-1 text content, and apply
every edit. `none` models a thrown error (null proxy or a page the
rasterizer document does not have), which aborts the whole export into
the `catch`. -/
def pageOps (mutPages : List PdfPage) (proxy : Option PdfDoc)
    (pageNum : Nat) (edits : List (Nat × String)) : Option (List DrawOp) :=
  if pageNum < 1 ∨ mutPages.length < pageNum then some []
  else
    match proxy with
    | none => none
    | some pdoc =>
        match pdoc.pages.get? (pageNum - 1) with
        | none => none
        | some pjPage =>
            some (edits.flatMap fun e =>
              editOps (pageNum - 1) pjPage.height pjPage.items e.1 e.2)

/-- The full export replay over the overlay entries in insertion order;
`none` (a thrown error) aborts the remaining entries. -/
def exportOps (mutPages : List PdfPage) (proxy : Option PdfDoc)
    (overlay : Overlay) : Option (List DrawOp) :=
  match overlay with
  | [] => some []
  | pe :: rest =>
      match pageOps mutPages proxy pe.1 pe.2 with
      | none => none
      | some ops => (exportOps mutPages proxy rest).map (ops ++ ·)

/-- Outcome of `downloadPdf`: the two precondition alerts, a caught
export-time error, or a successful export carrying the issued drawing
primitives (the serialized bytes reflect exactly these). -/
inductive ExportResult where
  | noBuffer
  | noChanges
  | errored
  | exported (ops : List DrawOp)
  deriving DecidableEq, Repr

/-- `downloadPdf()`. Guard 1: no original byte buffer or `PDFLib`
undefined (`mutLibLoaded = false`) → alert, return, no library call.
Guard 2: empty overlay → alert "No changes have been made.", return, no
library call. Otherwise `isLoading := true`, load the mutation-library
document from the original bytes (its page list is `mutDoc.pages` — the
single `Ev.mutation` event stands for this and the subsequent pdf-lib
calls), replay the edits, and clear `isLoading` in the `finally`. -/
def downloadPdf (mutLibLoaded : Bool) (st : AppState) (mutDoc : PdfDoc) :
    ExportResult × AppState × List Ev :=
  match st.pdfFileBuffer, mutLibLoaded with
  | none, _ =>
      (ExportResult.noBuffer, st, [Ev.alert "No PDF loaded or PDF library not available."])
  | some _, false =>
      (ExportResult.noBuffer, st, [Ev.alert "No PDF loaded or PDF library not available."])
  | some _, true =>
      if st.editedTexts.isEmpty then
        (ExportResult.noChanges, st, [Ev.alert "No changes have been made."])
      else
        let st1 := { st with isLoading := true }
        match exportOps mutDoc.pages st.pdfDocProxy st.editedTexts with
        | none =>
            (ExportResult.errored, { st1 with isLoading := false },
              [Ev.mutation, Ev.alert "An error occurred while saving the PDF."])
        | some ops =>
            (ExportResult.exported ops, { st1 with isLoading := false }, [Ev.mutation])

/-- From the claim's words (for comparison with `exportOps`): the overlay
with every stale edit dropped — entries whose page number is out of range
of the output document's page list, and edits whose fragment index is out
of range of that page's freshly re-extracted fragment list. -/
def dropStaleEdits (mutPages : List PdfPage) (proxy : PdfDoc)
    (overlay : Overlay) : Overlay :=
  (overlay.filter fun pe => decide (1 ≤ pe.1) && decide (pe.1 ≤ mutPages.length)).map
    fun pe =>
      (pe.1, pe.2.filter fun e =>
        match proxy.pages.get? (pe.1 - 1) with
        | none => false
        | some pjPage => decide (e.1 < pjPage.items.length))

/-- Heap of JS `Map` objects for the reference-level model of
`updateText`: `outers` are overlay objects (page number → inner-map
reference, addressed by list index), `inners` are per-page sub-map
objects (fragment index → replacement text). -/
structure MapStore where
  outers : List (List (Nat × Nat))
  inners : List (List (Nat × String))
  deriving DecidableEq, Repr

/-- `updateText` at the reference level, acting on the overlay object at
reference `o`: `currentMap.get(page) ?? new Map()` (reuse the existing
sub-map object or allocate an empty one), `pageEdits.set(itemIndex,
newText)` (mutate the sub-map in place), `currentMap.set(page, pageEdits)`
(mutate the outer object in place), then `new Map(currentMap)` — allocate
a fresh shallow copy and return its reference. -/
def updateTextStore (store : MapStore) (o : Nat) (page itemIndex : Nat)
    (newText : String) : MapStore × Nat :=
  let outer := store.outers.getD o []
  let alloc :=
    match alistLookup outer page with
    | some r => (r, store)
    | none => (store.inners.length, { store with inners := store.inners ++ [[]] })
  let r := alloc.1
  let store1 := alloc.2
  let inner' := alistSet (store1.inners.getD r []) itemIndex newText
  let store2 := { store1 with inners := store1.inners.set r inner' }
  let outer' := alistSet outer page r
  let store3 := { store2 with outers := store2.outers.set o outer' }
  ({ store3 with outers := store3.outers ++ [outer'] }, store3.outers.length)

/-- Witness fixture: the spec's example fragment, transform
`[1,0,0,1,50,700]`, width 40, height 12. -/
def specItem : TextItem :=
  { str := "old", dir := "ltr", width := 40, height := 12,
    transform := [1, 0, 0, 1, 50, 700], fontName := "f0" }

/-- Witness fixture: the spec's example page, height 792, holding
`specItem`. -/
def specPage : PdfPage := { width := 612, height := 792, items := [specItem] }

/-- Witness fixture: the one-page document built from `specPage`. -/
def specDoc : PdfDoc := { pages := [specPage] }

/-- Witness fixture: a session state with `specDoc` loaded and the single
fragment of page 1 edited to `"new"`. -/
def specState : AppState :=
  { initialState with
      pdfFileBuffer := some [1]
      pdfDocProxy := some specDoc
      totalPages := 1
      textItems := specItem :: []
      editedTexts := [(1, [(0, "new")])] }

/-- Witness fixture: a two-page document whose first page is `specPage`. -/
def specDoc2 : PdfDoc :=
  { pages := [specPage, { width := 612, height := 792, items := [] }] }

/-- Witness fixture: a session on page 1 of `specDoc2` with no edits. -/
def navState : AppState :=
  { initialState with
      pdfDocProxy := some specDoc2
      totalPages := 2
      textItems := [specItem] }

/-- Witness fixture: a page that has only three extracted fragments. -/
def threeItemPage : PdfPage :=
  { width := 612, height := 792, items := [specItem, specItem, specItem] }

/-- Witness fixture: the one-page rasterizer document whose page 1 now
has only three fragments. -/
def staleDoc : PdfDoc := { pages := [threeItemPage] }

/-- Witness fixture: an overlay holding a stale edit for fragment index 5
(the page has 3 fragments), a live edit for fragment index 1, and an edit
for a page number out of range of the output document. -/
def staleOverlay : Overlay := [(1, [(5, "a"), (1, "b")]), (9, [(0, "c")])]

lemma alistLookup_alistSet_self {α : Type} (m : List (Nat × α)) (k : Nat) (v : α) :
    alistLookup (alistSet m k v) k = some v := by
  induction m with
  | nil => simp [alistSet, alistLookup]
  | cons hd tl ih =>
      obtain ⟨k', v'⟩ := hd
      by_cases hk : k' = k
      · simp [alistSet, alistLookup, hk]
      · simp [alistSet, alistLookup, hk, ih]

lemma renderPage_editedTexts (cr ro : Bool) (st : AppState) (p : Nat) :
    ((renderPage cr ro st p).1).editedTexts = st.editedTexts := by
  unfold renderPage
  rcases h : st.pdfDocProxy with _ | doc
  · rfl
  · dsimp only
    split
    · rfl
    · split
      · rfl
      · split <;> rfl

lemma renderPage_pdfDocProxy (cr ro : Bool) (st : AppState) (p : Nat) :
    ((renderPage cr ro st p).1).pdfDocProxy = st.pdfDocProxy := by
  unfold renderPage
  rcases h : st.pdfDocProxy with _ | doc
  · exact h
  · dsimp only
    split
    · exact h
    · split
      · exact h
      · split <;> rfl

lemma renderPage_totalPages (cr ro : Bool) (st : AppState) (p : Nat) :
    ((renderPage cr ro st p).1).totalPages = st.totalPages := by
  unfold renderPage
  rcases h : st.pdfDocProxy with _ | doc
  · rfl
  · dsimp only
    split
    · rfl
    · split
      · rfl
      · split <;> rfl

lemma renderPage_currentPage_of (ro : Bool) (st : AppState) (doc : PdfDoc) (p : Nat)
    (hdoc : st.pdfDocProxy = some doc) (h1 : 1 ≤ p) (h2 : p ≤ st.totalPages) :
    ((renderPage true ro st p).1).currentPage = p := by
  unfold renderPage
  rw [hdoc]
  dsimp only
  rw [if_neg (by omega)]
  rw [if_neg (by simp)]
  split <;> rfl

lemma zoomStep_bounds (z : ℚ) (d : Bool) (h1 : 1/2 ≤ z) (h2 : z ≤ 3) :
    1/2 ≤ zoomStep z d ∧ zoomStep z d ≤ 3 := by
  cases d with
  | true =>
      constructor
      · exact le_min (by linarith) (by norm_num)
      · exact min_le_right _ _
  | false =>
      constructor
      · exact le_max_right _ _
      · exact max_le (by linarith) (by norm_num)

lemma zoom_foldl_bounds (steps : List Bool) (z : ℚ) (h1 : 1/2 ≤ z) (h2 : z ≤ 3) :
    1/2 ≤ steps.foldl zoomStep z ∧ steps.foldl zoomStep z ≤ 3 := by
  induction steps generalizing z with
  | nil => exact ⟨h1, h2⟩
  | cons d rest ih =>
      obtain ⟨hl, hr⟩ := zoomStep_bounds z d h1 h2
      exact ih (zoomStep z d) hl hr

/-- C9: starting from the initial zoom factor, every finite sequence of
zoom-in/zoom-out clicks (each stepping by the fixed increment `1/4` and
clamping) leaves the zoom factor within the configured range
`[1/2, 3]` — so in particular it is in range after every single step. -/
theorem zoom_stays_in_range (steps : List Bool) :
    1/2 ≤ zoomAfter steps ∧ zoomAfter steps ≤ 3 :=
  zoom_foldl_bounds steps (5/4) (by norm_num) (by norm_num)

/-- C6: after a successful document load (`loadPdf`, which also renders
page 1), the Edit Overlay is empty, the current page is 1, and the total
page count is the new document's page count — for every prior session
state. -/
theorem loadPdf_resets_session (canvasReady renderOk : Bool) (st : AppState)
    (doc : PdfDoc) :
    ((loadPdf canvasReady renderOk st doc).1).editedTexts = [] ∧
    ((loadPdf canvasReady renderOk st doc).1).currentPage = 1 ∧
    ((loadPdf canvasReady renderOk st doc).1).totalPages = doc.pages.length := by
  unfold loadPdf renderPage
  dsimp only
  split
  · exact ⟨rfl, rfl, rfl⟩
  · split
    · exact ⟨rfl, rfl, rfl⟩
    · split <;> exact ⟨rfl, rfl, rfl⟩

/-- C8: selecting a file whose MIME type is not `application/pdf` raises
the rejection alert, changes no state at all, and never calls the
rasterizer. -/
theorem non_pdf_mime_rejected (canvasReady renderOk libsOk : Bool) (st : AppState)
    (fileType : String) (buf : ByteBuf) (parsed : Option PdfDoc)
    (h : fileType ≠ "application/pdf") :
    onFileSelected canvasReady renderOk libsOk st fileType buf parsed =
      (st, [Ev.alert "Please select a PDF file."]) ∧
    Ev.rasterizer ∉ (onFileSelected canvasReady renderOk libsOk st fileType buf parsed).2 := by
  unfold onFileSelected
  rw [if_pos h]
  exact ⟨rfl, by simp⟩

/-- Witness for C8 at the concrete MIME type `image/png`. -/
theorem non_pdf_mime_rejected_witness :
    onFileSelected true true true initialState "image/png" [1] none =
      (initialState, [Ev.alert "Please select a PDF file."]) ∧
    Ev.rasterizer ∉ (onFileSelected true true true initialState "image/png" [1] none).2 :=
  non_pdf_mime_rejected true true true initialState "image/png" [1] none (by decide)

/-- C3 (failing input): a valid PDF is selected and parses to a one-page
document, but the canvas does not yet exist when the load chain reaches
`renderPage(1)`. The guard returns early without clearing `isLoading`,
and no catch runs, so the chain terminates with `isLoading = true` —
contradicting the claim that every terminal state of a user-initiated
chain has the flag false. -/
theorem load_chain_leaves_isLoading_stuck :
    ((onFileSelected false true true initialState "application/pdf" [1]
        (some (PdfDoc.mk [PdfPage.mk 612 792 []]))).1).isLoading = true := by
  rfl

lemma getEditedText_fallback_none (st : AppState) (i : Nat)
    (hover : (alistLookup st.editedTexts st.currentPage).bind
      (fun pe => alistLookup pe i) = none)
    (hout : st.textItems.length ≤ i) :
    getEditedText st i = none := by
  unfold getEditedText
  rcases h : alistLookup st.editedTexts st.currentPage with _ | pe
  · show (st.textItems.get? i).map TextItem.str = none
    rw [List.get?_eq_none.2 hout]
    rfl
  · rw [h] at hover
    have hover' : alistLookup pe i = none := hover
    show (match alistLookup pe i with
          | some s => some s
          | none => (st.textItems.get? i).map TextItem.str) = none
    rw [hover', List.get?_eq_none.2 hout]
    rfl

/-- C10: the read path `getEditedText` is partial — when the requested
fragment index has no overlay entry for the current page and is out of
bounds of the currently rendered fragment list, the fallback read crashes
(reading `.str` of `undefined`), modelled here as the `none` result. -/
theorem getEditedText_none_out_of_bounds (st : AppState) (i : Nat)
    (hover : (alistLookup st.editedTexts st.currentPage).bind
      (fun pe => alistLookup pe i) = none)
    (hout : st.textItems.length ≤ i) :
    getEditedText st i = none :=
  getEditedText_fallback_none st i hover hout

/-- Witness for C10: in the initial state (empty overlay, no fragments)
reading fragment 0 crashes rather than returning a string. -/
theorem getEditedText_none_witness : getEditedText initialState 0 = none :=
  getEditedText_none_out_of_bounds initialState 0 rfl (by decide)

lemma getD_set_self {α : Type} (l : List α) (i : Nat) (a d : α) (h : i < l.length) :
    (l.set i a).getD i d = a := by
  induction l generalizing i with
  | nil => simp at h
  | cons x xs ih =>
      cases i with
      | zero => rfl
      | succ n => exact ih n (by simpa using h)

lemma updateTextStore_outers (store : MapStore) (o page itemIndex : Nat) (s : String) :
    ∃ outer' : List (Nat × Nat),
      (updateTextStore store o page itemIndex s).1.outers =
        (store.outers.set o outer') ++ [outer'] ∧
      (updateTextStore store o page itemIndex s).2 = store.outers.length := by
  rcases h : alistLookup (store.outers.getD o []) page with _ | r
  · refine ⟨alistSet (store.outers.getD o []) page store.inners.length, ?_, ?_⟩ <;>
      simp only [updateTextStore, h, List.length_set]
  · refine ⟨alistSet (store.outers.getD o []) page r, ?_, ?_⟩ <;>
      simp only [updateTextStore, h, List.length_set]

/-- C2, counterexample: starting from a store holding one empty overlay
object at reference 0, recording an edit leaves the old object's content
changed (the page entry was set on it in place before the shallow copy) —
refuting the claim's clause that the previously held overlay value is not
mutated by the update. -/
theorem updateText_mutates_old_overlay :
    ¬ ((updateTextStore (MapStore.mk [[]] []) 0 1 0 "X").1.outers.getD 0 [] =
        (MapStore.mk [[]] []).outers.getD 0 []) := by
  decide

/-- C2, amended: recording an edit does return a fresh outer overlay
reference distinct from the held one `o`, but `o` is mutated in place —
after the update the old object holds exactly the same entries as the
newly returned overlay (the page entry is set on the old object itself
before the shallow copy, whose per-page sub-maps are shared). -/
theorem updateText_fresh_ref_but_shared_mutation (store : MapStore)
    (o page itemIndex : Nat) (s : String) (h : o < store.outers.length) :
    (updateTextStore store o page itemIndex s).2 ≠ o ∧
    (updateTextStore store o page itemIndex s).1.outers.getD o [] =
      (updateTextStore store o page itemIndex s).1.outers.getD
        (updateTextStore store o page itemIndex s).2 [] := by
  obtain ⟨outer', ho, hr⟩ := updateTextStore_outers store o page itemIndex s
  have hlen : (store.outers.set o outer').length = store.outers.length :=
    List.length_set store.outers o outer'
  constructor
  · rw [hr]; omega
  · rw [ho, hr]
    rw [List.getD_append _ _ _ _ (by omega)]
    rw [getD_set_self store.outers o outer' [] h]
    rw [List.getD_append_right _ _ _ _ (by omega)]
    rw [hlen]
    simp

/-- Witness for C2 (amended) at a concrete store with one overlay object. -/
theorem updateText_fresh_ref_witness :
    0 < (MapStore.mk [[]] []).outers.length ∧
    ((updateTextStore (MapStore.mk [[]] []) 0 2 3 "y").2 ≠ 0 ∧
      (updateTextStore (MapStore.mk [[]] []) 0 2 3 "y").1.outers.getD 0 [] =
        (updateTextStore (MapStore.mk [[]] []) 0 2 3 "y").1.outers.getD
          (updateTextStore (MapStore.mk [[]] []) 0 2 3 "y").2 []) :=
  ⟨by decide, updateText_fresh_ref_but_shared_mutation (MapStore.mk [[]] []) 0 2 3 "y" (by decide)⟩

/-- C7: with no original byte buffer (or `PDFLib` missing) the export
reports failure, and with a loaded buffer but an empty overlay it reports
"no changes"; in both cases no mutation-library call is made and no output
is produced. -/
theorem export_preconditions (b : Bool) (st : AppState) (mutDoc : PdfDoc) :
    (st.pdfFileBuffer = none →
      downloadPdf b st mutDoc =
        (ExportResult.noBuffer, st, [Ev.alert "No PDF loaded or PDF library not available."]) ∧
      Ev.mutation ∉ (downloadPdf b st mutDoc).2.2 ∧
      ∀ ops, (downloadPdf b st mutDoc).1 ≠ ExportResult.exported ops) ∧
    (b = true → ∀ buf, st.pdfFileBuffer = some buf → st.editedTexts = [] →
      downloadPdf b st mutDoc =
        (ExportResult.noChanges, st, [Ev.alert "No changes have been made."]) ∧
      Ev.mutation ∉ (downloadPdf b st mutDoc).2.2 ∧
      ∀ ops, (downloadPdf b st mutDoc).1 ≠ ExportResult.exported ops) := by
  constructor
  · intro h
    have hd : downloadPdf b st mutDoc =
        (ExportResult.noBuffer, st, [Ev.alert "No PDF loaded or PDF library not available."]) := by
      unfold downloadPdf
      rw [h]
    refine ⟨hd, ?_, ?_⟩
    · rw [hd]; simp
    · intro ops; rw [hd]; simp
  · intro hb buf hbuf hempty
    have hd : downloadPdf b st mutDoc =
        (ExportResult.noChanges, st, [Ev.alert "No changes have been made."]) := by
      unfold downloadPdf
      rw [hbuf, hb, hempty]
      rfl
    refine ⟨hd, ?_, ?_⟩
    · rw [hd]; simp
    · intro ops; rw [hd]; simp

/-- Witness for C7: the initial state has no buffer; a state with a buffer
but an untouched overlay reports "no changes". -/
theorem export_preconditions_witness :
    downloadPdf true initialState specDoc =
      (ExportResult.noBuffer, initialState,
        [Ev.alert "No PDF loaded or PDF library not available."]) ∧
    downloadPdf true { initialState with pdfFileBuffer := some [1] } specDoc =
      (ExportResult.noChanges, { initialState with pdfFileBuffer := some [1] },
        [Ev.alert "No changes have been made."]) :=
  ⟨((export_preconditions true initialState specDoc).1 rfl).1,
   (((export_preconditions true { initialState with pdfFileBuffer := some [1] }
      specDoc).2 rfl [1] rfl rfl)).1⟩

lemma getEditedText_of_bind_some (st : AppState) (i : Nat) (s : String)
    (h : (alistLookup st.editedTexts st.currentPage).bind
      (fun pe => alistLookup pe i) = some s) :
    getEditedText st i = some s := by
  unfold getEditedText
  rcases hh : alistLookup st.editedTexts st.currentPage with _ | pe
  · rw [hh] at h
    simp at h
  · rw [hh] at h
    have h' : alistLookup pe i = some s := h
    show (match alistLookup pe i with
          | some s' => some s'
          | none => (st.textItems.get? i).map TextItem.str) = some s
    rw [h']

lemma getEditedText_of_bind_none (st : AppState) (i : Nat) (item : TextItem)
    (h : (alistLookup st.editedTexts st.currentPage).bind
      (fun pe => alistLookup pe i) = none)
    (hitem : st.textItems.get? i = some item) :
    getEditedText st i = some item.str := by
  unfold getEditedText
  rcases hh : alistLookup st.editedTexts st.currentPage with _ | pe
  · rw [hitem]
    rfl
  · rw [hh] at h
    have h' : alistLookup pe i = none := h
    show (match alistLookup pe i with
          | some s' => some s'
          | none => (st.textItems.get? i).map TextItem.str) = some item.str
    rw [h', hitem]
    rfl

lemma overlay_lookup_after_set (E : Overlay) (p i : Nat) (X : String) :
    (alistLookup (alistSet E p (alistSet ((alistLookup E p).getD []) i X)) p).bind
      (fun pe => alistLookup pe i) = some X := by
  rw [alistLookup_alistSet_self]
  exact alistLookup_alistSet_self _ i X

/-- C5: recording an edit for fragment `i` on the current page makes
`getEditedText i` return the new text; the value survives rendering a
different page `q` and rendering back to the original page; and with no
overlay entry for (current page, `i`), `getEditedText i` returns the
original fragment's text. -/
theorem recorded_edit_read_back (st : AppState) (doc : PdfDoc) (i q : Nat)
    (X : String) (r1 r2 : Bool) :
    getEditedText (updateText st i X) i = some X ∧
    (st.pdfDocProxy = some doc → 1 ≤ st.currentPage → st.currentPage ≤ st.totalPages →
      1 ≤ q → q ≤ st.totalPages →
      getEditedText
        ((renderPage true r2 ((renderPage true r1 (updateText st i X) q).1)
          st.currentPage).1) i = some X) ∧
    ((alistLookup st.editedTexts st.currentPage).bind
        (fun pe => alistLookup pe i) = none →
      ∀ item, st.textItems.get? i = some item →
        getEditedText st i = some item.str) := by
  refine ⟨?_, ?_, ?_⟩
  · apply getEditedText_of_bind_some
    show (alistLookup (updateText st i X).editedTexts st.currentPage).bind
        (fun pe => alistLookup pe i) = some X
    exact overlay_lookup_after_set st.editedTexts st.currentPage i X
  · intro hdoc h1 h2 hq1 hq2
    have hu1 : (updateText st i X).pdfDocProxy = some doc := hdoc
    have hu2 : (updateText st i X).totalPages = st.totalPages := rfl
    have hu3 : (updateText st i X).currentPage = st.currentPage := rfl
    set st2 := (renderPage true r1 (updateText st i X) q).1 with hst2
    have h2doc : st2.pdfDocProxy = some doc := by
      rw [hst2, renderPage_pdfDocProxy]
      exact hu1
    have h2tot : st2.totalPages = st.totalPages := by
      rw [hst2, renderPage_totalPages]
      exact hu2
    set st3 := (renderPage true r2 st2 st.currentPage).1 with hst3
    have h3cp : st3.currentPage = st.currentPage := by
      rw [hst3]
      exact renderPage_currentPage_of r2 st2 doc st.currentPage h2doc h1 (by omega)
    have h3ed : st3.editedTexts = (updateText st i X).editedTexts := by
      rw [hst3, renderPage_editedTexts, hst2, renderPage_editedTexts]
    apply getEditedText_of_bind_some
    rw [h3ed, h3cp]
    exact overlay_lookup_after_set st.editedTexts st.currentPage i X
  · intro hnone item hitem
    exact getEditedText_of_bind_none st i item hnone hitem

/-- Witness for C5: on `navState`, editing fragment 0 to "X" reads back
"X", still reads back "X" after rendering page 2 and then page 1 again,
and with no recorded edit the read returns the original text. -/
theorem recorded_edit_read_back_witness :
    getEditedText (updateText navState 0 "X") 0 = some "X" ∧
    getEditedText
      ((renderPage true true ((renderPage true true (updateText navState 0 "X") 2).1)
        navState.currentPage).1) 0 = some "X" ∧
    getEditedText navState 0 = some specItem.str := by
  have h := recorded_edit_read_back navState specDoc2 0 2 "X" true true
  exact ⟨h.1, h.2.1 rfl (by decide) (by decide) (by decide) (by decide),
    h.2.2 rfl specItem rfl⟩

lemma editOps_out_of_range (pi : Nat) (H : ℚ) (items : List TextItem)
    (itemIndex : Nat) (s : String) (h : items.length ≤ itemIndex) :
    editOps pi H items itemIndex s = [] := by
  unfold editOps
  rw [List.get?_eq_none.2 h]

lemma flatMap_filter_editOps (pi : Nat) (H : ℚ) (items : List TextItem)
    (edits : List (Nat × String)) :
    (edits.filter fun e => decide (e.1 < items.length)).flatMap
      (fun e => editOps pi H items e.1 e.2) =
    edits.flatMap fun e => editOps pi H items e.1 e.2 := by
  induction edits with
  | nil => rfl
  | cons e rest ih =>
      by_cases h : e.1 < items.length
      · simp only [List.filter_cons, decide_eq_true h, if_true, List.flatMap_cons, ih]
      · have hz : editOps pi H items e.1 e.2 = [] :=
          editOps_out_of_range pi H items e.1 e.2 (le_of_not_lt h)
        simp only [List.filter_cons, List.flatMap_cons, hz, ih]
        simp [h, ih]

lemma pageOps_skip (mutPages : List PdfPage) (proxy : Option PdfDoc)
    (pageNum : Nat) (edits : List (Nat × String))
    (h : pageNum < 1 ∨ mutPages.length < pageNum) :
    pageOps mutPages proxy pageNum edits = some [] := by
  unfold pageOps
  rw [if_pos h]

lemma pageOps_in_range (mutPages : List PdfPage) (pdoc : PdfDoc)
    (pageNum : Nat) (edits : List (Nat × String)) (pjPage : PdfPage)
    (h : ¬(pageNum < 1 ∨ mutPages.length < pageNum))
    (hget : pdoc.pages.get? (pageNum - 1) = some pjPage) :
    pageOps mutPages (some pdoc) pageNum edits =
      some (edits.flatMap fun e =>
        editOps (pageNum - 1) pjPage.height pjPage.items e.1 e.2) := by
  unfold pageOps
  rw [if_neg h]
  show (match pdoc.pages.get? (pageNum - 1) with
        | none => none
        | some pjPage =>
            some (edits.flatMap fun e =>
              editOps (pageNum - 1) pjPage.height pjPage.items e.1 e.2)) =
      some (edits.flatMap fun e =>
        editOps (pageNum - 1) pjPage.height pjPage.items e.1 e.2)
  rw [hget]

lemma exportOps_cons (mutPages : List PdfPage) (proxy : Option PdfDoc)
    (pe : Nat × List (Nat × String)) (rest : Overlay) (ops : List DrawOp)
    (h : pageOps mutPages proxy pe.1 pe.2 = some ops) :
    exportOps mutPages proxy (pe :: rest) =
      (exportOps mutPages proxy rest).map (ops ++ ·) := by
  simp only [exportOps]
  rw [h]

lemma option_map_nil_append (o : Option (List DrawOp)) :
    o.map (fun x => [] ++ x) = o := by
  cases o <;> simp

/-- C4: with the rasterizer document covering every in-range page (in the
app both documents come from the same bytes), the export never aborts,
and its result is unchanged when every stale edit — out-of-range page
index or out-of-range fragment index against the freshly re-extracted
fragment list — is dropped beforehand: stale edits are skipped and the
remaining edits are still applied. -/
theorem stale_edits_skipped (mutPages : List PdfPage) (pdoc : PdfDoc)
    (overlay : Overlay)
    (hcov : ∀ pe ∈ overlay, 1 ≤ pe.1 → pe.1 ≤ mutPages.length →
      pe.1 - 1 < pdoc.pages.length) :
    (exportOps mutPages (some pdoc) overlay).isSome ∧
    exportOps mutPages (some pdoc) overlay =
      exportOps mutPages (some pdoc) (dropStaleEdits mutPages pdoc overlay) := by
  induction overlay with
  | nil => exact ⟨rfl, rfl⟩
  | cons pe rest ih =>
      have ihh := ih (fun x hx h1 h2 => hcov x (List.mem_cons_of_mem pe hx) h1 h2)
      by_cases hrange : pe.1 < 1 ∨ mutPages.length < pe.1
      · have hdrop : dropStaleEdits mutPages pdoc (pe :: rest) =
            dropStaleEdits mutPages pdoc rest := by
          unfold dropStaleEdits
          rw [List.filter_cons]
          have : (decide (1 ≤ pe.1) && decide (pe.1 ≤ mutPages.length)) = false := by
            rcases hrange with h | h
            · simp [Nat.lt_one_iff.1 h]
            · simp [Nat.not_le.2 h]
          rw [this]
          simp
        rw [exportOps_cons mutPages (some pdoc) pe rest []
          (pageOps_skip mutPages (some pdoc) pe.1 pe.2 hrange), hdrop]
        rw [option_map_nil_append]
        exact ihh
      · push_neg at hrange
        have h1 : 1 ≤ pe.1 := hrange.1
        have h2 : pe.1 ≤ mutPages.length := hrange.2
        have hlt : pe.1 - 1 < pdoc.pages.length :=
          hcov pe (List.mem_cons_self pe rest) h1 h2
        have hget : pdoc.pages.get? (pe.1 - 1) =
            some (pdoc.pages.get ⟨pe.1 - 1, hlt⟩) := List.get?_eq_get hlt
        set pjPage := pdoc.pages.get ⟨pe.1 - 1, hlt⟩ with hpj
        have hnot : ¬(pe.1 < 1 ∨ mutPages.length < pe.1) := by omega
        have hpage := pageOps_in_range mutPages pdoc pe.1 pe.2 pjPage hnot hget
        have hdrop : dropStaleEdits mutPages pdoc (pe :: rest) =
            (pe.1, pe.2.filter fun e => decide (e.1 < pjPage.items.length)) ::
              dropStaleEdits mutPages pdoc rest := by
          unfold dropStaleEdits
          rw [List.filter_cons]
          have ht : (decide (1 ≤ pe.1) && decide (pe.1 ≤ mutPages.length)) = true := by
            simp [h1, h2]
          rw [ht]
          simp only [if_true, List.map_cons]
          rw [hget]
        have hpage2 := pageOps_in_range mutPages pdoc pe.1
          (pe.2.filter fun e => decide (e.1 < pjPage.items.length)) pjPage hnot hget
        rw [exportOps_cons mutPages (some pdoc) pe rest _ hpage, hdrop]
        rw [exportOps_cons mutPages (some pdoc) _ _ _ hpage2]
        dsimp only
        rw [flatMap_filter_editOps (pe.1 - 1) pjPage.height pjPage.items pe.2]
        rw [← ihh.2]
        refine ⟨?_, rfl⟩
        rcases ho : exportOps mutPages (some pdoc) rest with _ | l
        · rw [ho] at ihh
          simp at ihh
        · simp [ho]

/-- Witness for C4: with a page that now has only three fragments, the
edit for fragment index 5 and the edit for out-of-range page 9 are
skipped while the edit for fragment index 1 is still applied, without
aborting the export. -/
theorem stale_edits_skipped_witness :
    (∀ pe ∈ staleOverlay, 1 ≤ pe.1 → pe.1 ≤ [specPage].length →
      pe.1 - 1 < staleDoc.pages.length) ∧
    ((exportOps [specPage] (some staleDoc) staleOverlay).isSome ∧
      exportOps [specPage] (some staleDoc) staleOverlay =
        exportOps [specPage] (some staleDoc)
          (dropStaleEdits [specPage] staleDoc staleOverlay)) :=
  ⟨by decide, stale_edits_skipped [specPage] staleDoc staleOverlay (by decide)⟩

/-- Helper: evaluation of `downloadPdf` on a state holding exactly one
recorded edit. -/
lemma downloadPdf_single_edit (st : AppState) (mutDoc pdoc : PdfDoc)
    (buf : ByteBuf) (pageNum i : Nat) (s : String) (pjPage : PdfPage)
    (item : TextItem)
    (hbuf : st.pdfFileBuffer = some buf)
    (hproxy : st.pdfDocProxy = some pdoc)
    (hov : st.editedTexts = [(pageNum, [(i, s)])])
    (h1 : 1 ≤ pageNum) (h2 : pageNum ≤ mutDoc.pages.length)
    (hget : pdoc.pages.get? (pageNum - 1) = some pjPage)
    (hitem : pjPage.items.get? i = some item) :
    (downloadPdf true st mutDoc).1 =
      ExportResult.exported
        [DrawOp.rect (pageNum - 1) (item.transform.getD 4 0)
            (pjPage.height - item.transform.getD 5 0) item.width item.height,
         DrawOp.text (pageNum - 1) s (item.transform.getD 4 0)
            (pjPage.height - item.transform.getD 5 0) (item.height * (9/10))] := by
  have hedit : editOps (pageNum - 1) pjPage.height pjPage.items i s =
      [DrawOp.rect (pageNum - 1) (item.transform.getD 4 0)
          (pjPage.height - item.transform.getD 5 0) item.width item.height,
       DrawOp.text (pageNum - 1) s (item.transform.getD 4 0)
          (pjPage.height - item.transform.getD 5 0) (item.height * (9/10))] := by
    unfold editOps
    rw [hitem]
  have hpage := pageOps_in_range mutDoc.pages pdoc pageNum [(i, s)] pjPage
    (by omega) hget
  have hops : exportOps mutDoc.pages (some pdoc) [(pageNum, [(i, s)])] =
      some [DrawOp.rect (pageNum - 1) (item.transform.getD 4 0)
              (pjPage.height - item.transform.getD 5 0) item.width item.height,
            DrawOp.text (pageNum - 1) s (item.transform.getD 4 0)
              (pjPage.height - item.transform.getD 5 0) (item.height * (9/10))] := by
    rw [exportOps_cons mutDoc.pages (some pdoc) (pageNum, [(i, s)]) [] _ hpage]
    simp only [exportOps, Option.map_some']
    simp [hedit]
  simp [downloadPdf, hbuf, hproxy, hov, hops]

/-- Helper: if `downloadPdf` succeeded with output ops, the edit replay
produced exactly those ops. -/
lemma downloadPdf_exported_inv (st : AppState) (mutDoc : PdfDoc) (buf : ByteBuf)
    (ops : List DrawOp) (hbuf : st.pdfFileBuffer = some buf)
    (hexp : (downloadPdf true st mutDoc).1 = ExportResult.exported ops) :
    exportOps mutDoc.pages st.pdfDocProxy st.editedTexts = some ops := by
  rcases hov : st.editedTexts with _ | ⟨pe, rest⟩
  · simp [downloadPdf, hbuf, hov] at hexp
  · rcases he : exportOps mutDoc.pages st.pdfDocProxy (pe :: rest) with _ | ops'
    · simp [downloadPdf, hbuf, hov, he] at hexp
    · have hval : (downloadPdf true st mutDoc).1 = ExportResult.exported ops' := by
        simp [downloadPdf, hbuf, hov, he]
      rw [hval] at hexp
      injection hexp with hops
      rw [hops]

/-- Helper: every edit of every overlay entry that survives the two range
checks contributes its drawing primitives to the replayed output. -/
lemma exportOps_mem (mutPages : List PdfPage) (pdoc : PdfDoc) :
    ∀ (overlay : Overlay) (ops : List DrawOp),
      exportOps mutPages (some pdoc) overlay = some ops →
      ∀ pageNum edits, (pageNum, edits) ∈ overlay →
      ∀ i s, (i, s) ∈ edits →
      ¬(pageNum < 1 ∨ mutPages.length < pageNum) →
      ∀ pjPage, pdoc.pages.get? (pageNum - 1) = some pjPage →
      ∀ d, d ∈ editOps (pageNum - 1) pjPage.height pjPage.items i s →
      d ∈ ops := by
  intro overlay
  induction overlay with
  | nil =>
      intro ops _ pageNum edits hmem
      simp at hmem
  | cons pe rest ih =>
      intro ops hexp pageNum edits hmem i s hes hrange pjPage hget d hd
      rcases hp : pageOps mutPages (some pdoc) pe.1 pe.2 with _ | ops1
      · simp only [exportOps, hp] at hexp
        exact Option.noConfusion hexp
      · rw [exportOps_cons mutPages (some pdoc) pe rest ops1 hp] at hexp
        rcases hr : exportOps mutPages (some pdoc) rest with _ | ops2
        · rw [hr] at hexp
          simp at hexp
        · rw [hr] at hexp
          simp only [Option.map_some'] at hexp
          injection hexp with hops
          rw [← hops]
          rcases List.mem_cons.1 hmem with heq | htail
          · subst heq
            dsimp only at hp
            rw [pageOps_in_range mutPages pdoc pageNum edits pjPage hrange hget] at hp
            injection hp with hops1
            apply List.mem_append_left
            rw [← hops1]
            exact List.mem_flatMap.2 ⟨(i, s), hes, hd⟩
          · exact List.mem_append_right _
              (ih ops2 hr pageNum edits htail i s hes hrange pjPage hget d hd)

/-- C1: for every exported edit — any recorded edit whose page and
fragment index survive the range checks in any successful export — the
cover rectangle and the replacement text are both drawn at
`x = transform[4]` and `y = pageHeight - transform[5]`, where
`pageHeight` is the rasterizer page's height at scale 1, with the
replacement text sized at `0.9 ×` the fragment's height. -/
theorem export_draws_at_inverted_y (st : AppState) (mutDoc pdoc : PdfDoc)
    (buf : ByteBuf) (pageNum i : Nat) (edits : List (Nat × String)) (s : String)
    (pjPage : PdfPage) (item : TextItem) (ops : List DrawOp)
    (hbuf : st.pdfFileBuffer = some buf)
    (hproxy : st.pdfDocProxy = some pdoc)
    (hov : (pageNum, edits) ∈ st.editedTexts)
    (hes : (i, s) ∈ edits)
    (h1 : 1 ≤ pageNum) (h2 : pageNum ≤ mutDoc.pages.length)
    (hget : pdoc.pages.get? (pageNum - 1) = some pjPage)
    (hitem : pjPage.items.get? i = some item)
    (hexp : (downloadPdf true st mutDoc).1 = ExportResult.exported ops) :
    DrawOp.rect (pageNum - 1) (item.transform.getD 4 0)
        (pjPage.height - item.transform.getD 5 0) item.width item.height ∈ ops ∧
    DrawOp.text (pageNum - 1) s (item.transform.getD 4 0)
        (pjPage.height - item.transform.getD 5 0) (item.height * (9/10)) ∈ ops := by
  have hsome := downloadPdf_exported_inv st mutDoc buf ops hbuf hexp
  rw [hproxy] at hsome
  have hedit : editOps (pageNum - 1) pjPage.height pjPage.items i s =
      [DrawOp.rect (pageNum - 1) (item.transform.getD 4 0)
          (pjPage.height - item.transform.getD 5 0) item.width item.height,
       DrawOp.text (pageNum - 1) s (item.transform.getD 4 0)
          (pjPage.height - item.transform.getD 5 0) (item.height * (9/10))] := by
    unfold editOps
    rw [hitem]
  constructor
  · exact exportOps_mem mutDoc.pages pdoc st.editedTexts ops hsome pageNum edits hov
      i s hes (by omega) pjPage hget _ (by rw [hedit]; exact List.mem_cons_self _ _)
  · exact exportOps_mem mutDoc.pages pdoc st.editedTexts ops hsome pageNum edits hov
      i s hes (by omega) pjPage hget _ (by rw [hedit]; simp)

/-- Witness for C1 at the spec's example: transform `[1,0,0,1,50,700]`,
width 40, height 12, page height 792 — the cover and the text are both
drawn at `x = 50`, `y = 792 - 700 = 92`, text size `12 * 0.9 = 10.8`. -/
theorem export_draws_at_inverted_y_witness :
    DrawOp.rect 0 (specItem.transform.getD 4 0)
        (specPage.height - specItem.transform.getD 5 0) specItem.width specItem.height
      ∈ [DrawOp.rect 0 50 92 40 12, DrawOp.text 0 "new" 50 92 (54/5)] ∧
    DrawOp.text 0 "new" (specItem.transform.getD 4 0)
        (specPage.height - specItem.transform.getD 5 0) (specItem.height * (9/10))
      ∈ [DrawOp.rect 0 50 92 40 12, DrawOp.text 0 "new" 50 92 (54/5)] := by
  have hexp : (downloadPdf true specState specDoc).1 =
      ExportResult.exported
        [DrawOp.rect 0 50 92 40 12, DrawOp.text 0 "new" 50 92 (54/5)] := by
    rw [downloadPdf_single_edit specState specDoc specDoc [1] 1 0 "new" specPage
      specItem rfl rfl rfl (by decide) (by decide) rfl rfl]
    norm_num [specItem, specPage]
  exact export_draws_at_inverted_y specState specDoc specDoc [1] 1 0 [(0, "new")]
    "new" specPage specItem _ rfl rfl (by decide) (by decide) (by decide) (by decide)
    rfl rfl hexp
